import Mathlib

/-!
Shallow embedding of the Stratavore core (agent lifecycle manager,
job graph resolver, time session tracker) and proofs about it.

Conventions used throughout:
* clock values (`time.time()`, `datetime.now()`) are modelled as a single
  abstract integer `now` passed to each operation;
* the Python `dict` of agents keyed by agent id is modelled as an
  association list `List (String × Agent)`; dict keys are unique, so
  first-match lookup/update coincides with dict access;
* each mutating operation returns `(returnValue, newRecordSet)`; when the
  source returns without writing the file, the original record set is
  returned unchanged;
* Python string fields that may be absent are modelled by their observed
  default (`j.get('created_at') or ''` becomes `""`, an absent or `None`
  assignee becomes `""`, an absent priority key defaults to `'low'`).
-/

namespace Stratavore

/-! ### Agent manager (src/agents/agent_manager.py) -/

inductive AgentStatus
  | idle
  | working
  | pausedA
  | completedA
  | error
  | spawning
deriving DecidableEq, Repr

/-- String value of an `AgentStatus`, as in the Python `Enum`. -/
def AgentStatus.value : AgentStatus → String
  | .idle => "idle"
  | .working => "working"
  | .pausedA => "paused"
  | .completedA => "completed"
  | .error => "error"
  | .spawning => "spawning"

structure Thought where
  timestamp : Int
  thought : String
deriving DecidableEq, Repr

structure CompletedTask where
  task_id : String
  completed_at : Int
  success : Bool
  notes : String
deriving DecidableEq, Repr

structure AgentMetrics where
  tasks_completed : Nat
  time_spent : Int
  success_rate : ℚ
deriving DecidableEq, Repr

structure Agent where
  id : String
  personality : String
  status : AgentStatus
  created_at : Int
  updated_at : Int
  current_task : Option String
  completed_tasks : List CompletedTask
  thoughts : List Thought
  metrics : AgentMetrics
deriving DecidableEq, Repr

/-- The agents dict `self.agents` (keys are unique in a Python dict). -/
abbrev AgentDict := List (String × Agent)

/-- Dict lookup `self.agents[agent_id]` (first match). -/
def dict_find (agents : AgentDict) (agent_id : String) : Option Agent :=
  match agents with
  | [] => none
  | (k, a) :: rest => if k = agent_id then some a else dict_find rest agent_id

/-- Dict update `self.agents[agent_id] = f(agent)`; no-op when the key is
absent, mirroring the `if agent_id not in self.agents: return` guards. -/
def dict_update (agents : AgentDict) (agent_id : String) (f : Agent → Agent) : AgentDict :=
  match agents with
  | [] => []
  | (k, a) :: rest =>
    if k = agent_id then (k, f a) :: rest else (k, a) :: dict_update rest agent_id f

/-- `add_agent_thought`: append a thought, keep only the last 50. -/
def add_agent_thought (now : Int) (t : String) (a : Agent) : Agent :=
  let thoughts := a.thoughts ++ [{ timestamp := now, thought := t }]
  { a with
    thoughts := if thoughts.length > 50 then thoughts.drop (thoughts.length - 50) else thoughts }

/-- `update_agent_status`: set status and `updated_at`, log a transition
thought when the status changed, then the optional explicit thought. -/
def update_agent_status (now : Int) (status : AgentStatus) (thought : Option String)
    (a : Agent) : Agent :=
  let old_status := a.status
  let a := { a with status := status, updated_at := now }
  let a :=
    if old_status ≠ status then
      add_agent_thought now ("Status changed: " ++ old_status.value ++ " -> " ++ status.value) a
    else a
  match thought with
  | some t => add_agent_thought now t a
  | none => a

/-- The agent id generated by `spawn_agent`:
`f"{personality.value}_{int(time.time())}"`.  `now` is the whole-second
clock reading `int(time.time())`. -/
def spawn_agent_id (personality : String) (now : Int) : String :=
  personality ++ "_" ++ toString now

/-- The fresh agent record built by `spawn_agent`. -/
def spawn_agent_data (personality : String) (now : Int) (task_id : Option String) : Agent :=
  { id := spawn_agent_id personality now
    personality := personality
    status := AgentStatus.spawning
    created_at := now
    updated_at := now
    current_task := task_id
    completed_tasks := []
    thoughts := []
    metrics := { tasks_completed := 0, time_spent := 0, success_rate := 0 } }

/-- The per-agent effect of `complete_task` (everything between the lookup
and the final save).  The success-rate update happens only inside
`if success:`. -/
def complete_task_agent (now : Int) (success : Bool) (notes : String) (a : Agent) : Agent :=
  let a : Agent :=
    match a.current_task with
    | some task_id =>
      let a : Agent := { a with
        completed_tasks := a.completed_tasks ++
          [{ task_id := task_id, completed_at := now, success := success, notes := notes }] }
      let a : Agent := { a with metrics := { a.metrics with
        tasks_completed := a.metrics.tasks_completed + 1 } }
      let a : Agent :=
        if success then
          { a with metrics := { a.metrics with
            success_rate := (a.metrics.success_rate * ((a.metrics.tasks_completed - 1 : ℕ) : ℚ)
                + 100) / (a.metrics.tasks_completed : ℚ) } }
        else a
      add_agent_thought now
        ("Completed task " ++ task_id ++ ": " ++ (if success then "SUCCESS" else "FAILED")) a
    | none => a
  { a with current_task := none, status := AgentStatus.idle, updated_at := now }

/-- `complete_task`: `False` when the agent is unknown, otherwise apply
`complete_task_agent` to it and report `True`. -/
def complete_task (now : Int) (agents : AgentDict) (agent_id : String) (success : Bool)
    (notes : String) : Bool × AgentDict :=
  match agents with
  | [] => (false, [])
  | (k, a) :: rest =>
    if k = agent_id then (true, (k, complete_task_agent now success notes a) :: rest)
    else
      let r := complete_task now rest agent_id success notes
      (r.1, (k, a) :: r.2)

/-- `assign_task`: only an existing agent in status idle or completed gets
the task; on success set the task, status working, and log a thought. -/
def assign_task (now : Int) (agents : AgentDict) (agent_id : String) (task_id : String) :
    Bool × AgentDict :=
  match agents with
  | [] => (false, [])
  | (k, a) :: rest =>
    if k = agent_id then
      if a.status = AgentStatus.idle ∨ a.status = AgentStatus.completedA then
        let a := { a with current_task := some task_id, status := AgentStatus.working,
                          updated_at := now }
        (true, (k, add_agent_thought now ("Assigned new task: " ++ task_id) a) :: rest)
      else (false, (k, a) :: rest)
    else
      let r := assign_task now rest agent_id task_id
      (r.1, (k, a) :: r.2)

/-- The staleness test of `unstuck_spawning_agents`: status spawning and
`(datetime.now() - created_at).total_seconds() > 30`. -/
def is_stuck (now : Int) (a : Agent) : Bool :=
  a.status = AgentStatus.spawning ∧ now - a.created_at > 30

/-- The thought recorded for a recovered agent. -/
def recover_thought : String := "Auto-recovered from stuck spawning state"

/-- `unstuck_spawning_agents`: collect the stuck agent ids, then transition
each to idle via `update_agent_status`; returns the recovered ids and the
updated agent set. -/
def unstuck_spawning_agents (now : Int) (agents : AgentDict) : List String × AgentDict :=
  let stuck := (agents.filter (fun p => is_stuck now p.2)).map Prod.fst
  (stuck,
    stuck.foldl
      (fun acc agent_id =>
        dict_update acc agent_id
          (update_agent_status now AgentStatus.idle (some recover_thought)))
      agents)

/-! ### Job graph resolver (src/jobs/job_tools.py) -/

structure Job where
  id : String
  title : String
  description : String
  status : String
  priority : String
  created_at : String
  dependencies : List String
  assignee : String
deriving DecidableEq, Repr, Inhabited

/-- `priority_order.get(j.get('priority', 'low'), 3)`: an absent key is
represented by `"low"` (same rank 2 as the default), any unrecognised
value ranks 3. -/
def priority_rank (p : String) : ℕ :=
  if p = "high" then 0 else if p = "medium" then 1 else if p = "low" then 2 else 3

/-- Ids of jobs with status completed. -/
def completed_ids (jobs : List Job) : List String :=
  (jobs.filter (fun j => j.status = "completed")).map Job.id

/-- A job is ready: pending, and every dependency id completed. -/
def job_ready (jobs : List Job) (j : Job) : Bool :=
  j.status = "pending" && j.dependencies.all (fun dep => dep ∈ completed_ids jobs)

/-- The sort key of `ready_jobs.sort`, lexicographic on
(priority rank, created_at string). -/
def job_sort_key (j : Job) : ℕ ×ₗ String :=
  toLex (priority_rank j.priority, j.created_at)

/-- A comparison by key, the relation a stable sort on `key` uses. -/
def key_le {α K : Type} (key : α → K) [LinearOrder K] (a b : α) : Prop :=
  key a ≤ key b

instance {α K : Type} (key : α → K) [LinearOrder K] : DecidableRel (key_le key) :=
  fun a b => inferInstanceAs (Decidable (key a ≤ key b))

instance {α K : Type} (key : α → K) [LinearOrder K] : IsTotal α (key_le key) :=
  ⟨fun a b => le_total (key a) (key b)⟩

instance {α K : Type} (key : α → K) [LinearOrder K] : IsTrans α (key_le key) :=
  ⟨fun _ _ _ => le_trans⟩

/-- `suggest_next_jobs`: keep the pending jobs whose dependencies are all
completed (in input order), then sort stably by (priority rank, created_at).
Python's `list.sort` is stable; `insertionSort` is the stable sort here. -/
def suggest_next_jobs (jobs : List Job) : List Job :=
  (jobs.filter (job_ready jobs)).insertionSort (key_le job_sort_key)

/-- First-occurrence key order of a Python dict built by repeated
`d.setdefault`-style insertion. -/
def distinct_firsts (l : List String) : List String :=
  l.foldl (fun acc x => if x ∈ acc then acc else acc ++ [x]) []

/-- One entry of the `generate_conflict_resolution` result
(field `type` is the constant `'agent_overload'` and is omitted). -/
structure Conflict where
  agent : String
  conflicts : List Job
  suggestion : String
  jobs_to_reassign : List Job
deriving DecidableEq, Repr

/-- `generate_conflict_resolution`: group pending jobs by non-empty
assignee; each agent with more than one such job yields a conflict.  The
source sorts by the raw `j['priority']` string and suggests
`sorted_jobs[0]`, while `jobs_to_reassign` is `assigned_jobs[1:]` of the
unsorted list. -/
def generate_conflict_resolution (jobs : List Job) : List Conflict :=
  let assigned := jobs.filter (fun j => j.status = "pending" && !(j.assignee = ""))
  let agents := distinct_firsts (assigned.map Job.assignee)
  agents.filterMap (fun agent =>
    let assigned_jobs := assigned.filter (fun j => j.assignee = agent)
    if assigned_jobs.length > 1 then
      let sorted_jobs := assigned_jobs.insertionSort (key_le Job.priority)
      some
        { agent := agent
          conflicts := assigned_jobs
          suggestion := "Focus on " ++ sorted_jobs.headI.title ++ " ("
            ++ sorted_jobs.headI.priority ++ " priority) first"
          jobs_to_reassign := assigned_jobs.drop 1 }
    else none)

/-- The `deps` dict of `validate_dependencies`: `deps[job['id']] =
job['dependencies']`, last duplicate id winning as in a Python dict. -/
def deps_get (jobs : List Job) (job_id : String) : Option (List String) :=
  (jobs.reverse.find? (fun j => j.id = job_id)).map Job.dependencies

/-- The recursive `visit` of `validate_dependencies`.  The source has no
fuel; recursion depth is bounded because it only recurses on keys not yet
visited, so fuel `jobs.length + 1` never runs out on dict-shaped input
(`validate_dependencies_visit_le` below is stated only under hypotheses
that keep the fuel sufficient). -/
def visit (jobs : List Job) : ℕ → String → List String → List String → Bool
  | 0, job_id, visited, _path =>
    if job_id ∈ visited then false
    else if (deps_get jobs job_id).isNone then true
    else false
  | (fuel + 1), job_id, visited, path =>
    if job_id ∈ visited then false
    else if (deps_get jobs job_id).isNone then true
    else
      ((deps_get jobs job_id).getD []).all
        (fun dep => visit jobs fuel dep (job_id :: visited) (path ++ [job_id]))

/-- The dependency pairs `(job_id, dep)` whose `dep` is absent from the
full job-id set. -/
def missing_deps_list (jobs : List Job) : List (String × String) :=
  (distinct_firsts (jobs.map Job.id)).flatMap (fun job_id =>
    (((deps_get jobs job_id).getD []).filter (fun dep => !(dep ∈ jobs.map Job.id))).map
      (fun dep => (job_id, dep)))

/-- `validate_dependencies`: true on the empty set; otherwise every root
must pass the cycle `visit` and no dependency may be missing. -/
def validate_dependencies (jobs : List Job) : Bool :=
  if jobs = [] then true
  else
    ((distinct_firsts (jobs.map Job.id)).all
        (fun job_id => visit jobs (jobs.length + 1) job_id [] []))
      && (missing_deps_list jobs = [])

/-! ### Time session tracker (src/jobs/time_tracker.py) -/

inductive SessionStatus
  | active
  | pausedS
  | completedS
  | cancelledS
deriving DecidableEq, Repr

structure PauseRec where
  pause_start : Int
  pause_end : Option Int
deriving DecidableEq, Repr

/-- A session record.  `end_time` (an ISO string in the source) is modelled
as the clock value it encodes; `start_time`/`created_at` duplicate
`start_timestamp` and carry no logic, so they are omitted. -/
structure Session where
  session_id : String
  job_id : String
  agent : String
  description : String
  status : SessionStatus
  start_timestamp : Int
  end_time : Option Int
  end_timestamp : Option Int
  duration_seconds : Option Int
  paused_time : Int
  pauses : List PauseRec
  notes : String
deriving DecidableEq, Repr

/-- `_apply_resume`: close the last pause if it is still open, accumulate
its duration into `paused_time`, and reactivate. -/
def apply_resume (now : Int) (s : Session) : Session :=
  let s : Session :=
    match s.pauses.getLast? with
    | some last_pause =>
      match last_pause.pause_end with
      | none =>
        { s with
          pauses := s.pauses.dropLast ++ [{ last_pause with pause_end := some now }]
          paused_time := s.paused_time + (now - last_pause.pause_start) }
      | some _ => s
    | none => s
  { s with status := SessionStatus.active }

/-- `end_session`: find the session (first match), auto-resume if paused,
reject unless then active, otherwise complete it.  The boolean is the
return value; the list is the persisted file (unchanged on failure). -/
def end_session (now : Int) (sid : String) (notes : String) (sessions : List Session) :
    Bool × List Session :=
  match sessions with
  | [] => (false, [])
  | s :: rest =>
    if s.session_id = sid then
      let s1 := if s.status = SessionStatus.pausedS then apply_resume now s else s
      if s1.status ≠ SessionStatus.active then (false, s :: rest)
      else
        (true,
          { s1 with
            status := SessionStatus.completedS
            end_time := some now
            end_timestamp := some now
            duration_seconds := some (now - s1.start_timestamp - s1.paused_time)
            notes := notes } :: rest)
    else
      let r := end_session now sid notes rest
      (r.1, s :: r.2)

/-- `cancel_session`: reject only an already-completed session; otherwise
set status cancelled and `end_time` (the source does not touch
`end_timestamp` or `duration_seconds` here). -/
def cancel_session (now : Int) (sid : String) (sessions : List Session) :
    Bool × List Session :=
  match sessions with
  | [] => (false, [])
  | s :: rest =>
    if s.session_id = sid then
      if s.status = SessionStatus.completedS then (false, s :: rest)
      else (true, { s with status := SessionStatus.cancelledS, end_time := some now } :: rest)
    else
      let r := cancel_session now sid rest
      (r.1, s :: r.2)

/-- The effect of `end_session` on the (first) session matching the id:
auto-resume when paused, then reject unless active, else complete.  Used
to state what `end_session` does at the match point. -/
def end_session_hit (now : Int) (notes : String) (s : Session) : Bool × Session :=
  let s1 := if s.status = SessionStatus.pausedS then apply_resume now s else s
  if s1.status ≠ SessionStatus.active then (false, s)
  else
    (true,
      { s1 with
        status := SessionStatus.completedS
        end_time := some now
        end_timestamp := some now
        duration_seconds := some (now - s1.start_timestamp - s1.paused_time)
        notes := notes })

/-- The effect of `cancel_session` on the (first) session matching the id. -/
def cancel_session_hit (now : Int) (s : Session) : Bool × Session :=
  if s.status = SessionStatus.completedS then (false, s)
  else (true, { s with status := SessionStatus.cancelledS, end_time := some now })

/-- Python truthiness of `s.get("duration_seconds")`: `None` and `0` are
falsy. -/
def duration_truthy : Option Int → Bool
  | none => false
  | some d => d ≠ 0

/-- Aggregate result of `_calculate_job_time` (the derived
`total_hours`/`formatted_time` renderings are omitted). -/
structure JobTimeInfo where
  total_seconds : Int
  completed_sessions : ℕ
  active_sessions : ℕ
deriving DecidableEq, Repr

/-- One step of the accumulation loop in `_calculate_job_time`. -/
def job_time_step (now : Int) (info : JobTimeInfo) (s : Session) : JobTimeInfo :=
  if s.status = SessionStatus.completedS && duration_truthy s.duration_seconds then
    { info with
      total_seconds := info.total_seconds + s.duration_seconds.getD 0
      completed_sessions := info.completed_sessions + 1 }
  else if s.status = SessionStatus.active then
    { info with
      total_seconds := info.total_seconds + (now - s.start_timestamp - s.paused_time)
      active_sessions := info.active_sessions + 1 }
  else info

/-- `_calculate_job_time`: fold the loop over the job's sessions. -/
def calculate_job_time (now : Int) (job_id : String) (sessions : List Session) : JobTimeInfo :=
  (sessions.filter (fun s => s.job_id = job_id)).foldl (job_time_step now)
    { total_seconds := 0, completed_sessions := 0, active_sessions := 0 }

/-! ### Concrete records used by witnesses and counterexamples -/

/-- A ready low-priority job. -/
def jobP1 : Job :=
  { id := "P1", title := "P1", description := "", status := "pending", priority := "low",
    created_at := "2024-01-01T00:00:00", dependencies := [], assignee := "" }

/-- A ready high-priority job. -/
def jobP2 : Job :=
  { id := "P2", title := "P2", description := "", status := "pending", priority := "high",
    created_at := "2024-01-02T00:00:00", dependencies := [], assignee := "" }

/-- A ready medium-priority job. -/
def jobP3 : Job :=
  { id := "P3", title := "P3", description := "", status := "pending", priority := "medium",
    created_at := "2024-01-03T00:00:00", dependencies := [], assignee := "" }

/-- A pending low-priority job assigned to alice. -/
def jobJ1 : Job :=
  { id := "J1", title := "J1", description := "", status := "pending", priority := "low",
    created_at := "2024-01-01T00:00:00", dependencies := [], assignee := "alice" }

/-- A pending medium-priority job assigned to alice. -/
def jobJ2 : Job :=
  { id := "J2", title := "J2", description := "", status := "pending", priority := "medium",
    created_at := "2024-01-02T00:00:00", dependencies := [], assignee := "alice" }

/-- A job depending on an id absent from the job set; its dependency
relation has no cycle. -/
def jobMissingDep : Job :=
  { id := "a", title := "a", description := "", status := "pending", priority := "low",
    created_at := "", dependencies := ["b"], assignee := "" }

/-- A dependency-free completed job with id `b`. -/
def jobB : Job :=
  { id := "b", title := "b", description := "", status := "completed", priority := "high",
    created_at := "", dependencies := [], assignee := "" }

/-- A pending job depending on the (present) job `b`. -/
def jobA : Job :=
  { id := "a2", title := "a2", description := "", status := "pending", priority := "low",
    created_at := "", dependencies := ["b"], assignee := "" }

/-- An agent that completed one task successfully (rate 100) and holds a
second task. -/
def agentOneSuccess : Agent :=
  { id := "cadet_0", personality := "cadet", status := AgentStatus.working,
    created_at := 0, updated_at := 0, current_task := some "t2",
    completed_tasks := [{ task_id := "t1", completed_at := 0, success := true, notes := "" }],
    thoughts := [], metrics := { tasks_completed := 1, time_spent := 0, success_rate := 100 } }

/-- An idle agent with no current task. -/
def agentNoTask : Agent :=
  { id := "cadet_0", personality := "cadet", status := AgentStatus.idle,
    created_at := 0, updated_at := 0, current_task := none, completed_tasks := [],
    thoughts := [], metrics := { tasks_completed := 0, time_spent := 0, success_rate := 0 } }

/-- An agent stuck in spawning since time 0. -/
def agentStuck : Agent := spawn_agent_data "cadet" 0 none

/-- An active session on job `j` started at time 100. -/
def sessionActive : Session :=
  { session_id := "j_100", job_id := "j", agent := "alice", description := "",
    status := SessionStatus.active, start_timestamp := 100, end_time := none,
    end_timestamp := none, duration_seconds := none, paused_time := 0, pauses := [],
    notes := "" }

/-- A paused session with one open pause record. -/
def sessionPaused : Session :=
  { sessionActive with
    status := SessionStatus.pausedS
    pauses := [{ pause_start := 110, pause_end := none }] }

/-- A completed session whose recorded duration is `0` — falsy in
`s.get("duration_seconds")`. -/
def sessionZeroDuration : Session :=
  { session_id := "j_200", job_id := "j", agent := "alice", description := "",
    status := SessionStatus.completedS, start_timestamp := 200, end_time := some 200,
    end_timestamp := some 200, duration_seconds := some 0, paused_time := 0, pauses := [],
    notes := "" }

/-! ### Helper lemmas: stability of the key-based insertion sort -/

/-- Inserting `a` keeps the subsequence of any fixed key value intact,
except that when `a` carries that key it lands in front of it: every
element passed over has a strictly smaller key than `a`. -/
theorem filter_orderedInsert_key {α K : Type} [LinearOrder K] [DecidableEq K]
    (key : α → K) (k : K) (a : α) :
    ∀ l : List α,
      (List.orderedInsert (key_le key) a l).filter (fun x => decide (key x = k)) =
        if key a = k then a :: l.filter (fun x => decide (key x = k))
        else l.filter (fun x => decide (key x = k))
  | [] => by
    by_cases h : key a = k <;> simp [List.orderedInsert, h]
  | b :: l => by
    by_cases hab : key_le key a b
    · by_cases h : key a = k <;>
        simp [List.orderedInsert, hab, List.filter_cons, h]
    · have hba : key b < key a := lt_of_not_le hab
      have ih := filter_orderedInsert_key key k a l
      by_cases h : key a = k
      · have hbk : ¬(key b = k) := by
          rw [← h]
          exact ne_of_lt hba
        simp [List.orderedInsert, hab, List.filter_cons, h, hbk, ih]
      · simp [List.orderedInsert, hab, List.filter_cons, h, ih]

/-- Stability of `insertionSort` with a key comparison: the elements of any
fixed key value come out in input order. -/
theorem insertionSort_filter_key {α K : Type} [LinearOrder K] [DecidableEq K]
    (key : α → K) (k : K) :
    ∀ l : List α,
      (l.insertionSort (key_le key)).filter (fun x => decide (key x = k)) =
        l.filter (fun x => decide (key x = k))
  | [] => rfl
  | a :: l => by
    have ih := insertionSort_filter_key key k l
    by_cases h : key a = k <;>
      simp [List.insertionSort, filter_orderedInsert_key key k a, ih, List.filter_cons, h]

/-! ### Claims about the job graph resolver -/

/-- Claim C2: `suggest_next_jobs` returns exactly the pending jobs all of
whose dependency ids belong to completed jobs of the list, sorted by
(priority rank, created_at) with ties in original input order; it returns
`[]` exactly when nothing is ready; and on the ready jobs
low-P1/high-P2/medium-P3 it returns [P2, P3, P1]. -/
theorem C2_suggest_next_jobs_spec :
    (∀ jobs : List Job,
      (∀ j : Job, job_ready jobs j = true ↔
        (j.status = "pending" ∧
          ∀ d ∈ j.dependencies, ∃ j' ∈ jobs, j'.id = d ∧ j'.status = "completed")) ∧
      List.Perm (suggest_next_jobs jobs) (jobs.filter (job_ready jobs)) ∧
      List.Sorted (key_le job_sort_key) (suggest_next_jobs jobs) ∧
      (∀ k : ℕ ×ₗ String,
        (suggest_next_jobs jobs).filter (fun j => decide (job_sort_key j = k)) =
          (jobs.filter (job_ready jobs)).filter (fun j => decide (job_sort_key j = k))) ∧
      (suggest_next_jobs jobs = [] ↔ jobs.filter (job_ready jobs) = [])) ∧
    suggest_next_jobs [jobP1, jobP2, jobP3] = [jobP2, jobP3, jobP1] := by
  constructor
  · intro jobs
    refine ⟨?_, ?_, ?_, ?_, ?_⟩
    · intro j
      simp only [job_ready, Bool.and_eq_true, decide_eq_true_eq, List.all_eq_true,
        completed_ids, List.mem_map, List.mem_filter]
      constructor
      · rintro ⟨h1, h2⟩
        refine ⟨h1, fun d hd => ?_⟩
        obtain ⟨j', ⟨hj', hst⟩, hid⟩ := h2 d hd
        exact ⟨j', hj', hid, hst⟩
      · rintro ⟨h1, h2⟩
        refine ⟨h1, fun d hd => ?_⟩
        obtain ⟨j', hj', hid, hst⟩ := h2 d hd
        exact ⟨j', ⟨hj', hst⟩, hid⟩
    · exact List.perm_insertionSort _ _
    · exact List.sorted_insertionSort _ _
    · intro k
      exact insertionSort_filter_key job_sort_key k _
    · constructor
      · intro h
        have := (List.perm_insertionSort (key_le job_sort_key)
          (jobs.filter (job_ready jobs))).symm
        rw [suggest_next_jobs] at h
        rw [h] at this
        exact this.eq_nil
      · intro h
        rw [suggest_next_jobs, h]
        rfl
  · decide

/-- Witness for C2: the polarity example instance of the specification. -/
theorem C2_witness :
    suggest_next_jobs [jobP1, jobP2, jobP3] = [jobP2, jobP3, jobP1] :=
  C2_suggest_next_jobs_spec.2

/-- Claim C3 (evaluating the code at the failing input): with two pending
jobs assigned to `alice` — `J1` of priority low, `J2` of priority medium —
the conflict suggests keeping `J1`, the job of *lower* priority (the sort
key is the raw priority string, and "low" < "medium" alphabetically), and
flags the higher-priority `J2` for reassignment. -/
theorem C3_conflict_resolution_wrong_job :
    generate_conflict_resolution [jobJ1, jobJ2] =
      [{ agent := "alice", conflicts := [jobJ1, jobJ2],
         suggestion := "Focus on J1 (low priority) first",
         jobs_to_reassign := [jobJ2] }] ∧
    priority_rank jobJ2.priority < priority_rank jobJ1.priority := by
  constructor
  · have hle : key_le Job.priority jobJ1 jobJ2 := by
      show jobJ1.priority ≤ jobJ2.priority
      rw [String.le_iff_toList_le]
      decide
    have h1 : (([jobJ2] : List Job).orderedInsert (key_le Job.priority) jobJ1)
        = [jobJ1, jobJ2] := by
      simp [List.orderedInsert, hle]
    simp +decide [generate_conflict_resolution, distinct_firsts, List.insertionSort, h1]
    rw [if_pos hle]
    decide
  · decide

/-! ### Helper lemmas for `validate_dependencies` -/

theorem mem_foldl_distinct (l : List String) :
    ∀ (acc : List String) (x : String),
      x ∈ l.foldl (fun acc x => if x ∈ acc then acc else acc ++ [x]) acc ↔ x ∈ acc ∨ x ∈ l := by
  induction l with
  | nil => simp
  | cons a l ih =>
    intro acc x
    rw [List.foldl_cons]
    by_cases ha : a ∈ acc
    · rw [if_pos ha, ih]
      constructor
      · rintro (h | h)
        · exact Or.inl h
        · exact Or.inr (List.mem_cons_of_mem _ h)
      · rintro (h | h)
        · exact Or.inl h
        · rcases List.mem_cons.mp h with rfl | h
          · exact Or.inl ha
          · exact Or.inr h
    · rw [if_neg ha, ih]
      simp only [List.mem_append, List.mem_singleton, List.mem_cons]
      tauto

theorem mem_distinct_firsts (l : List String) (x : String) :
    x ∈ distinct_firsts l ↔ x ∈ l := by
  rw [distinct_firsts, mem_foldl_distinct]
  simp

theorem deps_get_eq_none (jobs : List Job) (x : String) :
    deps_get jobs x = none ↔ x ∉ jobs.map Job.id := by
  simp only [deps_get, Option.map_eq_none', List.find?_eq_none, List.mem_reverse,
    decide_eq_true_eq, List.mem_map]
  aesop

theorem deps_get_some (jobs : List Job) (x : String) (ds : List String)
    (h : deps_get jobs x = some ds) :
    ∃ j ∈ jobs, j.id = x ∧ j.dependencies = ds := by
  rw [deps_get] at h
  obtain ⟨j, hfind, hdeps⟩ := Option.map_eq_some'.mp h
  refine ⟨j, ?_, ?_, hdeps⟩
  · exact List.mem_reverse.mp (List.mem_of_find?_eq_some hfind)
  · simpa using List.find?_some hfind

theorem visit_of_no_deps (jobs : List Job) (fuel : ℕ) (x : String) (visited path : List String)
    (h1 : deps_get jobs x = none) (h2 : x ∉ visited) :
    visit jobs fuel x visited path = true := by
  cases fuel <;> simp [visit, h1, h2]

/-- If the present dependencies admit a strictly decreasing rank (i.e. the
dependency relation has no cycle), `visit` succeeds whenever its fuel
exceeds the rank of its root and its `visited` accumulator lies above the
root in rank. -/
theorem visit_rank (jobs : List Job) (rank : String → ℕ)
    (hrank : ∀ j ∈ jobs, ∀ d ∈ j.dependencies, d ∈ jobs.map Job.id → rank d < rank j.id) :
    ∀ (fuel : ℕ) (job_id : String) (visited path : List String),
      (∀ v ∈ visited, v ∈ jobs.map Job.id) →
      (∀ v ∈ visited, rank job_id < rank v) →
      rank job_id < fuel →
      visit jobs fuel job_id visited path = true := by
  intro fuel
  induction fuel with
  | zero =>
    intro job_id visited path _ _ h
    exact absurd h (Nat.not_lt_zero _)
  | succ fuel ih =>
    intro job_id visited path hsub hlt hfuel
    have hv : job_id ∉ visited := fun hv => absurd (hlt _ hv) (lt_irrefl _)
    cases hget : deps_get jobs job_id with
    | none => exact visit_of_no_deps jobs _ job_id visited path hget hv
    | some ds =>
      obtain ⟨jb, hjb, hjbid, hjbdeps⟩ := deps_get_some jobs job_id ds hget
      have hid : job_id ∈ jobs.map Job.id := List.mem_map.mpr ⟨jb, hjb, hjbid⟩
      have hstep1 : visit jobs (fuel + 1) job_id visited path
          = ds.all (fun dep => visit jobs fuel dep (job_id :: visited) (path ++ [job_id])) := by
        simp [visit, hv, hget]
      rw [hstep1, List.all_eq_true]
      intro dep hdep
      by_cases hdid : dep ∈ jobs.map Job.id
      · have hstep : rank dep < rank job_id := by
          rw [← hjbid]
          exact hrank jb hjb dep (by rw [hjbdeps]; exact hdep) hdid
        apply ih
        · intro v hv'
          rcases List.mem_cons.mp hv' with rfl | hv''
          · exact hid
          · exact hsub v hv''
        · intro v hv'
          rcases List.mem_cons.mp hv' with rfl | hv''
          · exact hstep
          · exact lt_trans hstep (hlt v hv'')
        · omega
      · have hdepnone : deps_get jobs dep = none := (deps_get_eq_none jobs dep).mpr hdid
        have hdepnv : dep ∉ job_id :: visited := by
          intro hmem
          rcases List.mem_cons.mp hmem with rfl | hmem'
          · exact hdid hid
          · exact hdid (hsub dep hmem')
        exact visit_of_no_deps jobs fuel dep (job_id :: visited) (path ++ [job_id])
          hdepnone hdepnv

/-- Claim C4 (amended): for every job list whose dependency relation is
acyclic — witnessed by a rank function strictly decreasing along present
dependency edges and bounded by the list length — *and* whose every
dependency id occurs in the job-id set, `validate_dependencies` returns
true (no cycle report and no missing-dependency report). -/
theorem C4_validate_dependencies_acyclic :
    ∀ (jobs : List Job) (rank : String → ℕ),
      (∀ j ∈ jobs, ∀ d ∈ j.dependencies, d ∈ jobs.map Job.id → rank d < rank j.id) →
      (∀ j ∈ jobs, rank j.id ≤ jobs.length) →
      (∀ j ∈ jobs, ∀ d ∈ j.dependencies, d ∈ jobs.map Job.id) →
      validate_dependencies jobs = true := by
  intro jobs rank hrank hbound hcomplete
  rw [validate_dependencies]
  by_cases hnil : jobs = []
  · rw [if_pos hnil]
  rw [if_neg hnil, Bool.and_eq_true]
  constructor
  · rw [List.all_eq_true]
    intro k hk
    have hkid : k ∈ jobs.map Job.id := (mem_distinct_firsts _ _).mp hk
    obtain ⟨j, hj, hjid⟩ := List.mem_map.mp hkid
    apply visit_rank jobs rank hrank
    · intro v hv
      exact absurd hv (List.not_mem_nil v)
    · intro v hv
      exact absurd hv (List.not_mem_nil v)
    · have := hbound j hj
      rw [hjid] at this
      omega
  · simp only [decide_eq_true_eq]
    rw [missing_deps_list, List.eq_nil_iff_forall_not_mem]
    intro p hp
    obtain ⟨job_id, hjid, hq⟩ := List.mem_flatMap.mp hp
    obtain ⟨dep, hdep, _⟩ := List.mem_map.mp hq
    rw [List.mem_filter] at hdep
    obtain ⟨hdep_mem, hdep_not⟩ := hdep
    have hkid : job_id ∈ jobs.map Job.id := (mem_distinct_firsts _ _).mp hjid
    obtain ⟨ds, hds⟩ : ∃ ds, deps_get jobs job_id = some ds := by
      cases hget : deps_get jobs job_id with
      | none => exact absurd ((deps_get_eq_none jobs job_id).mp hget) (not_not_intro hkid)
      | some ds => exact ⟨ds, rfl⟩
    obtain ⟨jb, hjb, _, hjbdeps⟩ := deps_get_some jobs job_id ds hds
    rw [hds, Option.getD_some] at hdep_mem
    have : dep ∈ jobs.map Job.id := hcomplete jb hjb dep (by rw [hjbdeps]; exact hdep_mem)
    simp [this] at hdep_not

/-- Claim C4 counterexample: a single job `a` depending on the absent id
`b` has a cycle-free dependency relation (the constant rank works), yet
`validate_dependencies` returns false because of the missing dependency —
the claim promised true for every cycle-free job list. -/
theorem C4_missing_dep_counterexample :
    (∃ rank : String → ℕ,
      (∀ j ∈ [jobMissingDep], ∀ d ∈ j.dependencies,
        d ∈ ([jobMissingDep] : List Job).map Job.id → rank d < rank j.id) ∧
      (∀ j ∈ [jobMissingDep], rank j.id ≤ ([jobMissingDep] : List Job).length)) ∧
    validate_dependencies [jobMissingDep] = false := by
  refine ⟨⟨fun _ => 0, by decide, by decide⟩, by decide⟩

/-- Witness for C4: the completed job `b` and the pending job `a2`
depending on it form an acyclic, dependency-complete set, and the
validator accepts it. -/
theorem C4_witness : validate_dependencies [jobB, jobA] = true :=
  C4_validate_dependencies_acyclic [jobB, jobA]
    (fun s => if s = "a2" then 1 else 0) (by decide) (by decide) (by decide)

/-- Claim C8 (evaluating the code at the failing input): the id generated
by `spawn_agent` only depends on the personality and the whole second
`int(time.time())`, so two spawns of the same personality observing the
same second — here even with different task arguments — receive the same
id `cadet_1000`. -/
theorem C8_spawn_id_collision :
    spawn_agent_id "cadet" 1000 = "cadet_1000" ∧
    (spawn_agent_data "cadet" 1000 (some "taskA")).id
      = (spawn_agent_data "cadet" 1000 none).id := by
  constructor
  · rfl
  · rfl

/-! ### Helper lemmas for the session tracker -/

theorem end_session_not_found (now : Int) (sid notes : String) :
    ∀ sessions : List Session, (∀ s ∈ sessions, s.session_id ≠ sid) →
      end_session now sid notes sessions = (false, sessions) := by
  intro sessions
  induction sessions with
  | nil => intro _; rfl
  | cons s rest ih =>
    intro h
    have hs : s.session_id ≠ sid := h s (List.mem_cons_self s rest)
    simp only [end_session, if_neg hs]
    rw [ih (fun x hx => h x (List.mem_cons_of_mem s hx))]

theorem end_session_split (now : Int) (sid notes : String) (s : Session) (post : List Session)
    (hs : s.session_id = sid) :
    ∀ pre : List Session, (∀ x ∈ pre, x.session_id ≠ sid) →
      end_session now sid notes (pre ++ s :: post) =
        ((end_session_hit now notes s).1, pre ++ (end_session_hit now notes s).2 :: post) := by
  intro pre
  induction pre with
  | nil =>
    intro _
    simp only [List.nil_append, end_session, if_pos hs, end_session_hit]
    by_cases hact :
        (if s.status = SessionStatus.pausedS then apply_resume now s else s).status
          ≠ SessionStatus.active
    · simp [hact]
    · simp [hact]
  | cons x pre ih =>
    intro h
    have hx : x.session_id ≠ sid := h x (List.mem_cons_self x pre)
    simp only [List.cons_append, end_session, if_neg hx, List.append_eq]
    rw [ih (fun y hy => h y (List.mem_cons_of_mem x hy))]

theorem cancel_session_not_found (now : Int) (sid : String) :
    ∀ sessions : List Session, (∀ s ∈ sessions, s.session_id ≠ sid) →
      cancel_session now sid sessions = (false, sessions) := by
  intro sessions
  induction sessions with
  | nil => intro _; rfl
  | cons s rest ih =>
    intro h
    have hs : s.session_id ≠ sid := h s (List.mem_cons_self s rest)
    simp only [cancel_session, if_neg hs]
    rw [ih (fun x hx => h x (List.mem_cons_of_mem s hx))]

theorem cancel_session_split (now : Int) (sid : String) (s : Session) (post : List Session)
    (hs : s.session_id = sid) :
    ∀ pre : List Session, (∀ x ∈ pre, x.session_id ≠ sid) →
      cancel_session now sid (pre ++ s :: post) =
        ((cancel_session_hit now s).1, pre ++ (cancel_session_hit now s).2 :: post) := by
  intro pre
  induction pre with
  | nil =>
    intro _
    simp only [List.nil_append, cancel_session, if_pos hs, cancel_session_hit]
    by_cases hc : s.status = SessionStatus.completedS
    · simp [hc]
    · simp [hc]
  | cons x pre ih =>
    intro h
    have hx : x.session_id ≠ sid := h x (List.mem_cons_self x pre)
    simp only [List.cons_append, cancel_session, if_neg hx, List.append_eq]
    rw [ih (fun y hy => h y (List.mem_cons_of_mem x hy))]

/-! ### Claims about the session tracker -/

/-- Claim C5: `end_session` fails and changes nothing when the id is
absent or the session is already completed/cancelled; it completes an
active session with `duration_seconds = now - start_timestamp -
paused_time`; and on a paused session it first closes the open pause
(setting `pause_end = now` and adding `now - pause_start` to
`paused_time`) and computes the duration with the updated `paused_time`. -/
theorem C5_end_session_spec :
    (∀ (now : Int) (sid notes : String) (sessions : List Session),
      (∀ s ∈ sessions, s.session_id ≠ sid) →
      end_session now sid notes sessions = (false, sessions)) ∧
    (∀ (now : Int) (sid notes : String) (pre post : List Session) (s : Session),
      (∀ x ∈ pre, x.session_id ≠ sid) → s.session_id = sid →
      ((s.status = SessionStatus.completedS ∨ s.status = SessionStatus.cancelledS) →
        end_session now sid notes (pre ++ s :: post) = (false, pre ++ s :: post)) ∧
      (s.status = SessionStatus.active →
        end_session now sid notes (pre ++ s :: post) =
          (true, pre ++
            { s with
              status := SessionStatus.completedS
              end_time := some now
              end_timestamp := some now
              duration_seconds := some (now - s.start_timestamp - s.paused_time)
              notes := notes } :: post)) ∧
      (∀ (ps : List PauseRec) (lp : PauseRec),
        s.status = SessionStatus.pausedS → s.pauses = ps ++ [lp] → lp.pause_end = none →
        end_session now sid notes (pre ++ s :: post) =
          (true, pre ++
            { s with
              status := SessionStatus.completedS
              end_time := some now
              end_timestamp := some now
              pauses := ps ++ [{ lp with pause_end := some now }]
              paused_time := s.paused_time + (now - lp.pause_start)
              duration_seconds :=
                some (now - s.start_timestamp - (s.paused_time + (now - lp.pause_start)))
              notes := notes } :: post))) := by
  refine ⟨end_session_not_found, ?_⟩
  intro now sid notes pre post s hpre hs
  refine ⟨?_, ?_, ?_⟩
  · intro hdone
    rw [end_session_split now sid notes s post hs pre hpre]
    rcases hdone with hdone | hdone <;>
      simp [end_session_hit, hdone]
  · intro hact
    rw [end_session_split now sid notes s post hs pre hpre]
    simp [end_session_hit, hact]
  · intro ps lp hp hpauses hopen
    rw [end_session_split now sid notes s post hs pre hpre]
    have hresume : apply_resume now s =
        { s with
          pauses := ps ++ [{ lp with pause_end := some now }]
          paused_time := s.paused_time + (now - lp.pause_start)
          status := SessionStatus.active } := by
      rw [apply_resume, hpauses, List.getLast?_concat, List.dropLast_concat]
      simp [hopen]
    simp [end_session_hit, hp, hresume]

/-- Witness for C5: ending the concrete paused session at time 200 closes
its open pause (90 seconds), completes it, and reports 10 worked seconds. -/
theorem C5_witness :
    end_session 200 "j_100" "done" [sessionPaused] =
      (true,
        [{ sessionPaused with
            status := SessionStatus.completedS
            end_time := some 200
            end_timestamp := some 200
            pauses := [{ pause_start := 110, pause_end := some 200 }]
            paused_time := 90
            duration_seconds := some 10
            notes := "done" }]) := by
  have h := (C5_end_session_spec.2 200 "j_100" "done" [] [] sessionPaused
      (by intro x hx; exact absurd hx (List.not_mem_nil x)) rfl).2.2
      [] { pause_start := 110, pause_end := none } rfl rfl rfl
  simpa [sessionPaused, sessionActive] using h

/-- Claim C6 (amended): `cancel_session` fails exactly on a missing id or
an already-completed session (changing nothing); from any non-completed
state it succeeds, sets status cancelled and `end_time = now`, and leaves
`end_timestamp` and `duration_seconds` untouched (so unset for well-formed
non-completed sessions). -/
theorem C6_cancel_session_spec :
    (∀ (now : Int) (sid : String) (sessions : List Session),
      (∀ s ∈ sessions, s.session_id ≠ sid) →
      cancel_session now sid sessions = (false, sessions)) ∧
    (∀ (now : Int) (sid : String) (pre post : List Session) (s : Session),
      (∀ x ∈ pre, x.session_id ≠ sid) → s.session_id = sid →
      (s.status = SessionStatus.completedS →
        cancel_session now sid (pre ++ s :: post) = (false, pre ++ s :: post)) ∧
      (s.status ≠ SessionStatus.completedS →
        cancel_session now sid (pre ++ s :: post) =
          (true, pre ++
            { s with status := SessionStatus.cancelledS, end_time := some now } :: post))) := by
  refine ⟨cancel_session_not_found, ?_⟩
  intro now sid pre post s hpre hs
  constructor
  · intro hdone
    rw [cancel_session_split now sid s post hs pre hpre]
    simp [cancel_session_hit, hdone]
  · intro hnot
    rw [cancel_session_split now sid s post hs pre hpre]
    simp [cancel_session_hit, hnot]

/-- Claim C6 counterexample: cancelling the concrete active session
succeeds but leaves `end_timestamp` unset (`none`), while the claim says
`end_timestamp = now`; the source only writes `end_time` here. -/
theorem C6_end_timestamp_counterexample :
    (cancel_session 5 "j_100" [sessionActive]).1 = true ∧
    (cancel_session 5 "j_100" [sessionActive]).2.map Session.end_timestamp = [none] ∧
    ¬((cancel_session 5 "j_100" [sessionActive]).2.map Session.end_timestamp
        = [some 5]) := by
  refine ⟨by decide, by decide, by decide⟩

/-- Witness for C6: cancelling the concrete paused session at time 7
succeeds and stamps `end_time = 7`. -/
theorem C6_witness :
    cancel_session 7 "j_100" [sessionPaused] =
      (true,
        [{ sessionPaused with
            status := SessionStatus.cancelledS
            end_time := some 7 }]) := by
  have h := (C6_cancel_session_spec.2 7 "j_100" [] [] sessionPaused
      (by intro x hx; exact absurd hx (List.not_mem_nil x)) rfl).2 (by decide)
  simpa using h

theorem job_time_foldl (now : Int) :
    ∀ (l : List Session) (acc : JobTimeInfo),
      (l.foldl (job_time_step now) acc).total_seconds
          = acc.total_seconds
            + ((l.filter (fun s => s.status = SessionStatus.completedS
                && duration_truthy s.duration_seconds)).map
                (fun s => s.duration_seconds.getD 0)).sum
            + ((l.filter (fun s => s.status = SessionStatus.active)).map
                (fun s => now - s.start_timestamp - s.paused_time)).sum
        ∧ (l.foldl (job_time_step now) acc).completed_sessions
          = acc.completed_sessions + (l.filter (fun s => s.status = SessionStatus.completedS
              && duration_truthy s.duration_seconds)).length
        ∧ (l.foldl (job_time_step now) acc).active_sessions
          = acc.active_sessions + (l.filter (fun s => s.status = SessionStatus.active)).length := by
  intro l
  induction l with
  | nil => intro acc; simp
  | cons s l ih =>
    intro acc
    rw [List.foldl_cons]
    obtain ⟨ih1, ih2, ih3⟩ := ih (job_time_step now acc s)
    by_cases hc : s.status = SessionStatus.completedS
    · have hna : ¬(s.status = SessionStatus.active) := by rw [hc]; intro h; cases h
      by_cases hd : duration_truthy s.duration_seconds = true
      · refine ⟨?_, ?_, ?_⟩
        · rw [ih1]
          simp only [job_time_step, hc, hd, List.filter_cons, hna]
          simp [hc, hd, hna]
          omega
        · rw [ih2]
          simp only [job_time_step, hc, hd, List.filter_cons, hna]
          simp [hc, hd, hna]
          omega
        · rw [ih3]
          simp only [job_time_step, hc, hd, List.filter_cons, hna]
          simp [hc, hd, hna]
      · refine ⟨?_, ?_, ?_⟩
        · rw [ih1]
          simp [job_time_step, hc, hd, hna, List.filter_cons]
        · rw [ih2]
          simp [job_time_step, hc, hd, hna, List.filter_cons]
        · rw [ih3]
          simp [job_time_step, hc, hd, hna, List.filter_cons]
    · by_cases ha : s.status = SessionStatus.active
      · refine ⟨?_, ?_, ?_⟩
        · rw [ih1]
          simp [job_time_step, hc, ha, List.filter_cons]
          omega
        · rw [ih2]
          simp [job_time_step, hc, ha, List.filter_cons]
        · rw [ih3]
          simp [job_time_step, hc, ha, List.filter_cons]
          omega
      · refine ⟨?_, ?_, ?_⟩
        · rw [ih1]
          simp [job_time_step, hc, ha, List.filter_cons]
        · rw [ih2]
          simp [job_time_step, hc, ha, List.filter_cons]
        · rw [ih3]
          simp [job_time_step, hc, ha, List.filter_cons]

/-- Claim C7 (amended): `_calculate_job_time` sums `duration_seconds` over
the job's completed sessions *whose duration is set and nonzero* (Python
truthiness) plus `now - start_timestamp - paused_time` for each active
session; `completed_sessions` counts exactly the truthy-duration completed
sessions, `active_sessions` exactly the active ones; paused sessions are
excluded from the live-elapsed term. -/
theorem C7_calculate_job_time_spec :
    ∀ (now : Int) (job_id : String) (sessions : List Session),
      (calculate_job_time now job_id sessions).total_seconds
          = (((sessions.filter (fun s => s.job_id = job_id)).filter
                (fun s => s.status = SessionStatus.completedS
                  && duration_truthy s.duration_seconds)).map
              (fun s => s.duration_seconds.getD 0)).sum
            + (((sessions.filter (fun s => s.job_id = job_id)).filter
                (fun s => s.status = SessionStatus.active)).map
              (fun s => now - s.start_timestamp - s.paused_time)).sum
        ∧ (calculate_job_time now job_id sessions).completed_sessions
          = ((sessions.filter (fun s => s.job_id = job_id)).filter
              (fun s => s.status = SessionStatus.completedS
                && duration_truthy s.duration_seconds)).length
        ∧ (calculate_job_time now job_id sessions).active_sessions
          = ((sessions.filter (fun s => s.job_id = job_id)).filter
              (fun s => s.status = SessionStatus.active)).length := by
  intro now job_id sessions
  obtain ⟨h1, h2, h3⟩ := job_time_foldl now (sessions.filter (fun s => s.job_id = job_id))
    { total_seconds := 0, completed_sessions := 0, active_sessions := 0 }
  rw [calculate_job_time]
  refine ⟨?_, ?_, ?_⟩
  · simpa using h1
  · simpa using h2
  · simpa using h3

/-- Claim C7 counterexample: a completed session recorded with
`duration_seconds = 0` is a completed session of its job, but
`_calculate_job_time` does not count it (`0` is falsy in
`s.get("duration_seconds")`), so `completed_sessions` does not count
exactly the job's completed sessions. -/
theorem C7_zero_duration_counterexample :
    (calculate_job_time 300 "j" [sessionZeroDuration]).completed_sessions = 0 ∧
    (([sessionZeroDuration] : List Session).filter
        (fun s => s.job_id = "j" && s.status = SessionStatus.completedS)).length = 1 := by
  refine ⟨by decide, by decide⟩

/-! ### Helper lemmas for the agent manager -/

theorem complete_task_found (now : Int) (success : Bool) (notes : String) :
    ∀ (agents : AgentDict) (agent_id : String) (a : Agent),
      dict_find agents agent_id = some a →
      (complete_task now agents agent_id success notes).1 = true ∧
      dict_find (complete_task now agents agent_id success notes).2 agent_id
        = some (complete_task_agent now success notes a) := by
  intro agents
  induction agents with
  | nil => intro agent_id a h; cases h
  | cons p rest ih =>
    intro agent_id a h
    obtain ⟨k, b⟩ := p
    by_cases hk : k = agent_id
    · subst hk
      rw [dict_find, if_pos rfl] at h
      obtain rfl := Option.some.inj h
      simp only [complete_task, if_pos rfl, dict_find]
      exact ⟨rfl, rfl⟩
    · rw [dict_find, if_neg hk] at h
      obtain ⟨ih1, ih2⟩ := ih agent_id a h
      simp only [complete_task, if_neg hk, dict_find]
      exact ⟨ih1, ih2⟩

theorem complete_task_agent_fields (now : Int) (success : Bool) (notes : String) (a : Agent)
    (t : String) (h : a.current_task = some t) :
    (complete_task_agent now success notes a).completed_tasks
        = a.completed_tasks ++
            [{ task_id := t, completed_at := now, success := success, notes := notes }]
      ∧ (complete_task_agent now success notes a).metrics.tasks_completed
        = a.metrics.tasks_completed + 1
      ∧ (complete_task_agent now success notes a).metrics.success_rate
        = (if success then
            (a.metrics.success_rate * (a.metrics.tasks_completed : ℚ) + 100)
              / ((a.metrics.tasks_completed : ℚ) + 1)
          else a.metrics.success_rate)
      ∧ (complete_task_agent now success notes a).current_task = none
      ∧ (complete_task_agent now success notes a).status = AgentStatus.idle
      ∧ (complete_task_agent now success notes a).updated_at = now := by
  cases success <;>
    refine ⟨?_, ?_, ?_, ?_, ?_, ?_⟩ <;>
    simp [complete_task_agent, h, add_agent_thought]

/-! ### Claims about `complete_task` -/

/-- Claim C1 (amended): completing the current task of a known agent
returns true, appends the `{task_id, completed_at, success, notes}` record,
increments `tasks_completed` to `n`, and recomputes `success_rate` by
`(old_rate * (n-1) + 100) / n` — but *only when `success` is true*: on a
failed task the rate is left unchanged (the update sits inside
`if success:`).  The fail-then-succeed example still yields rate 0 after
the first task and 50 after the second. -/
theorem C1_complete_task_metrics :
    (∀ (now : Int) (agents : AgentDict) (agent_id : String) (success : Bool) (notes : String)
        (a : Agent) (t : String),
      dict_find agents agent_id = some a → a.current_task = some t →
      (complete_task now agents agent_id success notes).1 = true ∧
      ∃ a', dict_find (complete_task now agents agent_id success notes).2 agent_id = some a' ∧
        a'.completed_tasks = a.completed_tasks ++
          [{ task_id := t, completed_at := now, success := success, notes := notes }] ∧
        a'.metrics.tasks_completed = a.metrics.tasks_completed + 1 ∧
        a'.metrics.success_rate =
          (if success then
            (a.metrics.success_rate * (a.metrics.tasks_completed : ℚ) + 100)
              / ((a.metrics.tasks_completed : ℚ) + 1)
          else a.metrics.success_rate)) ∧
    (dict_find (complete_task 1 [("cadet_0", spawn_agent_data "cadet" 0 (some "t1"))]
        "cadet_0" false "").2 "cadet_0").map (fun a => a.metrics.success_rate) = some 0 ∧
    (dict_find (complete_task 3
        (assign_task 2 (complete_task 1 [("cadet_0", spawn_agent_data "cadet" 0 (some "t1"))]
          "cadet_0" false "").2 "cadet_0" "t2").2
        "cadet_0" true "").2 "cadet_0").map (fun a => a.metrics.success_rate) = some 50 := by
  refine ⟨?_, by decide, ?_⟩
  case refine_2 =>
    simp +decide [complete_task, complete_task_agent, assign_task, add_agent_thought,
      dict_find, spawn_agent_data, spawn_agent_id, agentOneSuccess]
    norm_num
  intro now agents agent_id success notes a t hfind htask
  obtain ⟨h1, h2⟩ := complete_task_found now success notes agents agent_id a hfind
  obtain ⟨f1, f2, f3, _, _, _⟩ := complete_task_agent_fields now success notes a t htask
  exact ⟨h1, complete_task_agent now success notes a, h2, f1, f2, f3⟩

/-- Claim C1 counterexample: an agent whose single completed task
succeeded (rate 100) completes its current task with `success = false`;
the code leaves the rate at 100, while the claimed recurrence
`(old_rate * (n-1) + 0) / n` demands 50. -/
theorem C1_failed_task_rate_counterexample :
    (complete_task 5 [("cadet_0", agentOneSuccess)] "cadet_0" false "").1 = true ∧
    ((dict_find (complete_task 5 [("cadet_0", agentOneSuccess)] "cadet_0" false "").2
        "cadet_0").map (fun a => a.metrics.success_rate)) = some 100 ∧
    ((dict_find (complete_task 5 [("cadet_0", agentOneSuccess)] "cadet_0" false "").2
        "cadet_0").map (fun a => a.metrics.success_rate))
      ≠ some ((agentOneSuccess.metrics.success_rate
          * (agentOneSuccess.metrics.tasks_completed : ℚ) + 0)
          / ((agentOneSuccess.metrics.tasks_completed : ℚ) + 1)) := by
  refine ⟨by decide, by decide, ?_⟩
  simp +decide [complete_task, complete_task_agent, add_agent_thought, dict_find,
    agentOneSuccess]
  norm_num

/-- Witness for C1: the agent holding task `t2` with one prior success. -/
theorem C1_witness :
    dict_find [("cadet_0", agentOneSuccess)] "cadet_0" = some agentOneSuccess ∧
    agentOneSuccess.current_task = some "t2" ∧
    ((complete_task 9 [("cadet_0", agentOneSuccess)] "cadet_0" true "ok").1 = true ∧
      ∃ a', dict_find (complete_task 9 [("cadet_0", agentOneSuccess)] "cadet_0" true "ok").2
          "cadet_0" = some a' ∧
        a'.completed_tasks = agentOneSuccess.completed_tasks ++
          [{ task_id := "t2", completed_at := 9, success := true, notes := "ok" }] ∧
        a'.metrics.tasks_completed = agentOneSuccess.metrics.tasks_completed + 1 ∧
        a'.metrics.success_rate =
          (if true then
            (agentOneSuccess.metrics.success_rate
                * (agentOneSuccess.metrics.tasks_completed : ℚ) + 100)
              / ((agentOneSuccess.metrics.tasks_completed : ℚ) + 1)
          else agentOneSuccess.metrics.success_rate)) :=
  ⟨rfl, rfl, C1_complete_task_metrics.1 9 [("cadet_0", agentOneSuccess)] "cadet_0" true "ok"
    agentOneSuccess "t2" rfl rfl⟩

/-- Claim C10: completing with no current task still returns true, sets
status idle and a fresh `updated_at`, and changes nothing else: no
appended completion record, unchanged metrics, no completion thought. -/
theorem C10_complete_task_no_current_task :
    ∀ (now : Int) (agents : AgentDict) (agent_id : String) (success : Bool) (notes : String)
      (a : Agent),
      dict_find agents agent_id = some a → a.current_task = none →
      (complete_task now agents agent_id success notes).1 = true ∧
      dict_find (complete_task now agents agent_id success notes).2 agent_id
        = some { a with current_task := none, status := AgentStatus.idle, updated_at := now } := by
  intro now agents agent_id success notes a hfind htask
  obtain ⟨h1, h2⟩ := complete_task_found now success notes agents agent_id a hfind
  refine ⟨h1, ?_⟩
  rw [h2]
  simp [complete_task_agent, htask]

/-- Witness for C10: the idle agent with no current task. -/
theorem C10_witness :
    dict_find [("cadet_0", agentNoTask)] "cadet_0" = some agentNoTask ∧
    agentNoTask.current_task = none ∧
    ((complete_task 4 [("cadet_0", agentNoTask)] "cadet_0" true "").1 = true ∧
      dict_find (complete_task 4 [("cadet_0", agentNoTask)] "cadet_0" true "").2 "cadet_0"
        = some { agentNoTask with
            current_task := none, status := AgentStatus.idle, updated_at := 4 }) :=
  ⟨rfl, rfl, C10_complete_task_no_current_task 4 [("cadet_0", agentNoTask)] "cadet_0" true ""
    agentNoTask rfl rfl⟩

/-! ### Helper lemmas for `unstuck_spawning_agents` -/

theorem add_agent_thought_status (now : Int) (t : String) (a : Agent) :
    (add_agent_thought now t a).status = a.status := rfl

theorem update_agent_status_status (now : Int) (st : AgentStatus) (th : Option String)
    (a : Agent) :
    (update_agent_status now st th a).status = st := by
  cases th <;> by_cases h : a.status ≠ st <;>
    simp [update_agent_status, h, add_agent_thought_status]

theorem dict_update_eq_map (agent_id : String) (f : Agent → Agent) :
    ∀ agents : AgentDict, (agents.map Prod.fst).Nodup →
      dict_update agents agent_id f =
        agents.map (fun p => if p.1 = agent_id then (p.1, f p.2) else p) := by
  intro agents
  induction agents with
  | nil => intro _; rfl
  | cons p rest ih =>
    intro hnd
    obtain ⟨k, a⟩ := p
    rw [List.map_cons, List.nodup_cons] at hnd
    obtain ⟨hk, hrest⟩ := hnd
    by_cases hkid : k = agent_id
    · subst hkid
      rw [dict_update, if_pos rfl, List.map_cons]
      simp only [if_pos rfl]
      congr 1
      have hmapid : rest.map (fun p => if p.1 = k then (p.1, f p.2) else p)
          = rest.map id := by
        apply List.map_congr_left
        intro q hq
        have : q.1 ≠ k := by
          intro hq1
          exact hk (List.mem_map.mpr ⟨q, hq, hq1⟩)
        simp [this]
      rw [hmapid, List.map_id]
    · rw [dict_update, if_neg hkid, List.map_cons]
      simp only [if_neg hkid]
      congr 1
      exact ih hrest

theorem dict_update_keys (agent_id : String) (f : Agent → Agent) :
    ∀ agents : AgentDict,
      (dict_update agents agent_id f).map Prod.fst = agents.map Prod.fst := by
  intro agents
  induction agents with
  | nil => rfl
  | cons p rest ih =>
    obtain ⟨k, a⟩ := p
    by_cases hkid : k = agent_id
    · rw [dict_update, if_pos hkid]
      simp
    · rw [dict_update, if_neg hkid, List.map_cons, List.map_cons, ih]

theorem foldl_dict_update_eq_map (f : Agent → Agent) :
    ∀ (ids : List String) (agents : AgentDict),
      ids.Nodup → (agents.map Prod.fst).Nodup →
      ids.foldl (fun acc agent_id => dict_update acc agent_id f) agents =
        agents.map (fun p => if p.1 ∈ ids then (p.1, f p.2) else p) := by
  intro ids
  induction ids with
  | nil =>
    intro agents _ _
    simp
  | cons k ks ih =>
    intro agents hnd hkeys
    rw [List.nodup_cons] at hnd
    obtain ⟨hkks, hks⟩ := hnd
    rw [List.foldl_cons, dict_update_eq_map k f agents hkeys]
    have hkeys2 : ((agents.map (fun p => if p.1 = k then (p.1, f p.2) else p)).map
        Prod.fst).Nodup := by
      rw [List.map_map]
      have : (Prod.fst ∘ fun p : String × Agent => if p.1 = k then (p.1, f p.2) else p)
          = Prod.fst := by
        funext p
        by_cases h : p.1 = k <;> simp [h]
      rw [this]
      exact hkeys
    rw [ih _ hks hkeys2, List.map_map]
    apply List.map_congr_left
    intro p _
    by_cases h1 : p.1 = k
    · simp [h1, hkks]
    · simp [h1, Function.comp, List.mem_cons]

/-! ### Claim C9: idempotence of stuck-agent recovery -/

/-- Claim C9: with unique dict keys, once `unstuck_spawning_agents` has
recovered every agent stuck in spawning past the 30-second threshold, an
immediately repeated call at the same clock value recovers nothing and
changes no agent. -/
theorem C9_unstuck_idempotent :
    ∀ (now : Int) (agents : AgentDict),
      (agents.map Prod.fst).Nodup →
      (unstuck_spawning_agents now (unstuck_spawning_agents now agents).2).1 = [] ∧
      (unstuck_spawning_agents now (unstuck_spawning_agents now agents).2).2
        = (unstuck_spawning_agents now agents).2 := by
  intro now agents hnd
  have hsub : ((agents.filter (fun p => is_stuck now p.2)).map Prod.fst).Sublist
      (agents.map Prod.fst) := (List.filter_sublist agents).map Prod.fst
  have hstuck_nodup : ((agents.filter (fun p => is_stuck now p.2)).map Prod.fst).Nodup :=
    hnd.sublist hsub
  have hmain : (unstuck_spawning_agents now agents).2
      = agents.map (fun p =>
          if p.1 ∈ (agents.filter (fun p => is_stuck now p.2)).map Prod.fst then
            (p.1, update_agent_status now AgentStatus.idle (some recover_thought) p.2)
          else p) := by
    rw [unstuck_spawning_agents]
    exact foldl_dict_update_eq_map _ _ agents hstuck_nodup hnd
  have hnotstuck : ∀ p ∈ (unstuck_spawning_agents now agents).2,
      ¬(is_stuck now p.2 = true) := by
    rw [hmain]
    intro p hp
    obtain ⟨q, hq, rfl⟩ := List.mem_map.mp hp
    by_cases h1 : q.1 ∈ (agents.filter (fun p => is_stuck now p.2)).map Prod.fst
    · simp only [if_pos h1]
      simp [is_stuck, update_agent_status_status]
    · simp only [if_neg h1]
      intro hstuckq
      exact h1 (List.mem_map_of_mem Prod.fst (List.mem_filter.mpr ⟨hq, hstuckq⟩))
  have hfilter : ((unstuck_spawning_agents now agents).2.filter
      (fun p => is_stuck now p.2)) = [] :=
    List.filter_eq_nil_iff.mpr hnotstuck
  constructor
  · rw [unstuck_spawning_agents, hfilter]
    rfl
  · rw [unstuck_spawning_agents, hfilter]
    rfl

/-- Witness for C9: one agent stuck in spawning since time 0, recovered at
time 100; the repeated call is a no-op. -/
theorem C9_witness :
    (([("cadet_0", agentStuck)] : AgentDict).map Prod.fst).Nodup ∧
    (unstuck_spawning_agents 100
        (unstuck_spawning_agents 100 [("cadet_0", agentStuck)]).2).1 = [] ∧
    (unstuck_spawning_agents 100
        (unstuck_spawning_agents 100 [("cadet_0", agentStuck)]).2).2
      = (unstuck_spawning_agents 100 [("cadet_0", agentStuck)]).2 := by
  have hnd : (([("cadet_0", agentStuck)] : AgentDict).map Prod.fst).Nodup := by decide
  exact ⟨hnd, (C9_unstuck_idempotent 100 [("cadet_0", agentStuck)] hnd).1,
    (C9_unstuck_idempotent 100 [("cadet_0", agentStuck)] hnd).2⟩

end Stratavore
